import Mathlib

/-!
Shallow embedding of the icon-processing pipeline of this repository
(src/process_icons.py and src/split_icons.py), which manipulates PIL
images.  Images are modelled as a rectangular grid of 8-bit RGBA pixels
together with a mode tag (PIL "RGB" or "RGBA"); for an RGB image the
alpha field is a convention (always 255 on real decoded images).

PIL primitives used by the scripts are modelled faithfully:

* `Image.crop (l, t, r, b)` yields an `(r-l) x (b-t)` image reading the
  source at offset coordinates, zero-filled outside the source.
* `Image.getbbox` (Pillow >= 10 default `alpha_only=True`): the bounding
  box of non-transparent pixels for an RGBA image, of not-all-zero RGB
  pixels for an RGB image; `none` when there is no such pixel.
* `Image.paste (src, (x, y), mask)` copies, converting the source to the
  destination mode; with a mask it blends each channel through Pillow's
  fixed-point `MULDIV255` kernel (`Paste.c`).
* `Image.resize (w, h)` returns a copy when the requested size equals
  the current size (Pillow short-circuit); otherwise it resamples with
  the LANCZOS filter.  The floating-point resample kernel itself is kept
  as a parameter `K : Kernel` of the pipeline definitions: every theorem
  below either holds for all kernels or takes the properties of the real
  kernel that it needs as explicit hypotheses.
* Python `int(n / 0.65)` on a nonnegative integer `n` equals
  `20 * n / 13` in integer floor division (0.65 rounds to a double
  slightly above 13/20, so the quotient is slightly below `20n/13` and
  rounds back to it; the value is exact for every image-scale `n`), and
  `int(h * 0.65)` equals `13 * h / 20`.
-/

/-- PIL image mode, restricted to the two modes the scripts produce and
consume. -/
inductive Mode where
  | RGB
  | RGBA
deriving DecidableEq, Repr

/-- An 8-bit RGBA pixel.  For `Mode.RGB` images the `a` field is a
convention and is 255 on well-formed images. -/
structure Pixel where
  r : Fin 256
  g : Fin 256
  b : Fin 256
  a : Fin 256
deriving DecidableEq, Repr

/-- Pillow's fixed-point `MULDIV255(a, b)` macro from `Paste.c`:
`tmp = a*b + 128; ((tmp >> 8) + tmp) >> 8`, i.e. `round(a*b/255)`. -/
def mulDiv255 (x m : Fin 256) : Fin 256 :=
  ⟨((x.val * m.val + 128) / 256 + (x.val * m.val + 128)) / 256, by
    have hx : x.val ≤ 255 := Nat.lt_succ_iff.mp x.isLt
    have hm : m.val ≤ 255 := Nat.lt_succ_iff.mp m.isLt
    have ht : x.val * m.val ≤ 65025 := Nat.mul_le_mul hx hm
    omega⟩

/-- Pillow's per-channel paste blend (`Paste.c`, `BLEND`):
`MULDIV255(d, 255 - m) + MULDIV255(s, m)`. -/
def blendChan (d s m : Fin 256) : Fin 256 :=
  ⟨(mulDiv255 d ⟨255 - m.val, by omega⟩).val + (mulDiv255 s m).val, by
    show ((d.val * (255 - m.val) + 128) / 256 + (d.val * (255 - m.val) + 128)) / 256
        + ((s.val * m.val + 128) / 256 + (s.val * m.val + 128)) / 256 < 256
    have hd : d.val ≤ 255 := Nat.lt_succ_iff.mp d.isLt
    have hs : s.val ≤ 255 := Nat.lt_succ_iff.mp s.isLt
    have hm : m.val ≤ 255 := Nat.lt_succ_iff.mp m.isLt
    have h1 : d.val * (255 - m.val) ≤ 255 * (255 - m.val) :=
      Nat.mul_le_mul_right _ hd
    have h2 : s.val * m.val ≤ 255 * m.val := Nat.mul_le_mul_right _ hs
    have hj : (d.val * (255 - m.val) + 128) / 256 ≤ 255 - m.val := by omega
    have hg : ((d.val * (255 - m.val) + 128) / 256
        + (d.val * (255 - m.val) + 128)) / 256 ≤ 255 - m.val := by omega
    have hk : (s.val * m.val + 128) / 256 ≤ m.val := by omega
    have hi : ((s.val * m.val + 128) / 256 + (s.val * m.val + 128)) / 256
        ≤ m.val := by omega
    omega⟩

/-- A raster image: dimensions, mode and a pixel grid (the function is
only meaningful on coordinates inside the rectangle). -/
structure Image where
  width : Nat
  height : Nat
  mode : Mode
  pix : Nat → Nat → Pixel

/-- `PIL.Image.new(mode, (w, h), c)`: constant image. -/
def Image.new (m : Mode) (w h : Nat) (c : Pixel) : Image :=
  ⟨w, h, m, fun _ _ => c⟩

/-- `img.crop((l, t, r, b))`: an `(r-l) x (b-t)` image reading the
source at the offset coordinates, zero-filled outside the source
(Pillow fills with 0 in every band; for RGB the alpha convention
stays 255). -/
def Image.crop (img : Image) (l t r b : Nat) : Image :=
  { width := r - l, height := b - t, mode := img.mode,
    pix := fun x y =>
      if l + x < img.width ∧ t + y < img.height then img.pix (l + x) (t + y)
      else
        (match img.mode with
        | .RGB => ⟨0, 0, 0, 255⟩
        | .RGBA => ⟨0, 0, 0, 0⟩) }

/-- Whether `getbbox` counts the pixel at `(x, y)` as content
(Pillow >= 10 default `alpha_only=True`): nonzero alpha for RGBA,
not-all-zero colour for RGB. -/
def Image.hasContent (img : Image) (x y : Nat) : Bool :=
  match img.mode with
  | .RGBA => decide ((img.pix x y).a ≠ 0)
  | .RGB =>
      decide (¬((img.pix x y).r = 0 ∧ (img.pix x y).g = 0 ∧ (img.pix x y).b = 0))

/-- The x-coordinates of columns containing content, in increasing order. -/
def Image.contentCols (img : Image) : List Nat :=
  (List.range img.width).filter fun x =>
    (List.range img.height).any fun y => img.hasContent x y

/-- The y-coordinates of rows containing content, in increasing order. -/
def Image.contentRows (img : Image) : List Nat :=
  (List.range img.height).filter fun y =>
    (List.range img.width).any fun x => img.hasContent x y

/-- `img.getbbox()`: smallest `(l, t, r, b)` containing all content
pixels, or `none` when the image has no content pixel. -/
def Image.getbbox (img : Image) : Option (Nat × Nat × Nat × Nat) :=
  match img.contentCols.head?, img.contentRows.head?,
        img.contentCols.getLast?, img.contentRows.getLast? with
  | some l, some t, some r, some b => some (l, t, r + 1, b + 1)
  | _, _, _, _ => none

/-- `img.convert("RGBA")`: RGB pixels gain alpha 255. -/
def Image.convertRGBA (img : Image) : Image :=
  { img with
    mode := Mode.RGBA
    pix := fun x y =>
      (match img.mode with
      | .RGBA => img.pix x y
      | .RGB => ⟨(img.pix x y).r, (img.pix x y).g, (img.pix x y).b, 255⟩) }

/-- `img.convert("RGB")`: the alpha band is dropped (no compositing). -/
def Image.convertRGB (img : Image) : Image :=
  { img with
    mode := Mode.RGB
    pix := fun x y => ⟨(img.pix x y).r, (img.pix x y).g, (img.pix x y).b, 255⟩ }

/-- `dst.paste(src, (px, py), mask)`.  The source is converted to the
destination mode first; without a mask pixels are copied, with a mask
each channel is blended through `blendChan` using the mask weight
(`mask = None` is `Option.none`; the scripts pass either the pasted
RGBA image itself or its alpha band as mask, so the weight function
receives source-local coordinates). -/
def Image.paste (dst src : Image) (px py : Nat)
    (mask : Option (Nat → Nat → Fin 256)) : Image :=
  { width := dst.width, height := dst.height, mode := dst.mode,
    pix := fun x y =>
      if px ≤ x ∧ x < px + src.width ∧ py ≤ y ∧ y < py + src.height ∧
          x < dst.width ∧ y < dst.height then
        let s0 := src.pix (x - px) (y - py)
        let s : Pixel :=
          match src.mode, dst.mode with
          | .RGB, .RGBA => ⟨s0.r, s0.g, s0.b, 255⟩
          | .RGBA, .RGB => ⟨s0.r, s0.g, s0.b, 255⟩
          | _, _ => s0
        (match mask with
        | none =>
            (match dst.mode with
            | .RGB => ⟨s.r, s.g, s.b, 255⟩
            | .RGBA => s)
        | some w =>
            let m := w (x - px) (y - py)
            let d := dst.pix x y
            (match dst.mode with
            | .RGB => ⟨blendChan d.r s.r m, blendChan d.g s.g m,
                       blendChan d.b s.b m, 255⟩
            | .RGBA => ⟨blendChan d.r s.r m, blendChan d.g s.g m,
                        blendChan d.b s.b m, blendChan d.a s.a m⟩))
      else dst.pix x y }

/-- The floating-point resampling kernel of `Image.resize` (LANCZOS in
the scripts), left abstract: given the source image, the target size and
a target coordinate it produces the resampled pixel. -/
def Kernel : Type := Image → Nat → Nat → Nat → Nat → Pixel

/-- `img.resize((w, h), LANCZOS)`: Pillow returns a copy when the
requested size equals the current size, otherwise it resamples with the
kernel (an RGB result carries no alpha band, kept as 255). -/
def Image.resize (K : Kernel) (img : Image) (w h : Nat) : Image :=
  if img.width = w ∧ img.height = h then img
  else
    { width := w, height := h, mode := img.mode,
      pix := fun x y =>
        let p := K img w h x y
        (match img.mode with
        | .RGB => ⟨p.r, p.g, p.b, 255⟩
        | .RGBA => p) }

/-- Python `int(n / 0.65)` for a nonnegative integer `n` (exact integer
form of the float computation on the whole image-dimension range, see
the header comment). -/
def intDiv065 (n : Nat) : Nat := 20 * n / 13

/-- Python `int(h * 0.65)` for a nonnegative integer `h` (exact integer
form of the float computation, see the header comment). -/
def intMul065 (h : Nat) : Nat := 13 * h / 20

/-- Pixel-identity of two images: equal dimensions, equal mode, and
equal pixels on every in-range coordinate. -/
def Image.pixEq (A B : Image) : Prop :=
  A.width = B.width ∧ A.height = B.height ∧ A.mode = B.mode ∧
  ∀ x, x < A.width → ∀ y, y < A.height → A.pix x y = B.pix x y

/-! ## src/process_icons.py -/

/-- `make_square_and_resize`, lines 17-22: center crop to square when
the image is not square. -/
def centerCropSquare (img : Image) : Image :=
  if img.width ≠ img.height then
    let size := min img.width img.height
    let left := (img.width - size) / 2
    let top := (img.height - size) / 2
    img.crop left top (left + size) (top + size)
  else img

/-- `make_square_and_resize`, lines 24-27: trim to the content bounding
box when one exists (`if bbox:`). -/
def trimTransparency (img : Image) : Image :=
  match img.getbbox with
  | some (l, t, r, b) => img.crop l t r b
  | none => img

/-- `make_square_and_resize`, lines 29-42: allocate the transparent
canvas of size `int(max(w, h) / 0.65)` and paste the icon centered,
using the icon itself as the paste mask. -/
def padToSafeZone (img : Image) : Image :=
  let icon_size := max img.width img.height
  let canvas_size := intDiv065 icon_size
  let canvas := Image.new Mode.RGBA canvas_size canvas_size ⟨0, 0, 0, 0⟩
  let paste_x := (canvas_size - img.width) / 2
  let paste_y := (canvas_size - img.height) / 2
  canvas.paste img paste_x paste_y (some fun x y => (img.pix x y).a)

/-- `make_square_and_resize(input, output, final_size)`
(src/process_icons.py lines 4-46): convert to RGBA, center-crop to a
square, trim transparency, pad into the safe-zone canvas, and resize to
`(final_size, final_size)`. -/
def make_square_and_resize (K : Kernel) (img : Image) (final_size : Nat) : Image :=
  let img1 := if img.mode ≠ Mode.RGBA then img.convertRGBA else img
  let img2 := centerCropSquare img1
  let img3 := trimTransparency img2
  (padToSafeZone img3).resize K final_size final_size

/-- `process_background`, lines 54-58: flatten an RGBA image over an
opaque white canvas using the alpha band as paste mask. -/
def flattenOnWhite (img : Image) : Image :=
  let bg := Image.new Mode.RGB img.width img.height ⟨255, 255, 255, 255⟩
  bg.paste img 0 0 (some fun x y => (img.pix x y).a)

/-- `process_background`, lines 62-69: pad (never crop) a non-square
image to a square by centering it on a white canvas sized to the larger
dimension. -/
def padSquareWhite (img : Image) : Image :=
  if img.width ≠ img.height then
    let size := max img.width img.height
    let squared := Image.new Mode.RGB size size ⟨255, 255, 255, 255⟩
    squared.paste img ((size - img.width) / 2) ((size - img.height) / 2) none
  else img

/-- `process_background`, lines 53-60: the mode-normalisation stage --
flatten an RGBA source over white, convert any other non-RGB mode,
leave RGB sources untouched. -/
def background_flatten_stage (img : Image) : Image :=
  if img.mode = Mode.RGBA then flattenOnWhite img
  else if img.mode ≠ Mode.RGB then img.convertRGB
  else img

/-- `process_background(input, output, final_size)`
(src/process_icons.py lines 49-74): flatten transparency over white
(RGBA) or convert to RGB (other modes), square by white padding, resize
to `(final_size, final_size)`. -/
def process_background (K : Kernel) (img : Image) (final_size : Nat) : Image :=
  (padSquareWhite (background_flatten_stage img)).resize K final_size final_size

/-- The density table of `create_all_densities`
(src/process_icons.py lines 78-83; identical in src/split_icons.py
lines 80-85). -/
def densities : List (String × Nat) :=
  [("mdpi", 108), ("hdpi", 162), ("xhdpi", 216), ("xxhdpi", 324)]

/-- The fixed output file names iterated by the density fan-out
(src/process_icons.py lines 85-89). -/
def icon_files : List String :=
  ["ic_launcher_foreground.png", "ic_launcher_background.png",
   "ic_launcher_monochrome.png"]

/-- The four density copies produced for one source image: the body of
the inner loop of `create_all_densities` (lines 99-105), a pure
`resize` per density entry. -/
def densityOutputsFor (K : Kernel) (img : Image) : List (String × Image) :=
  densities.map fun p => (p.1, img.resize K p.2 p.2)

/-- `create_all_densities(xxxhdpi_dir, output_base_dir)`
(src/process_icons.py lines 76-107): the xxxhdpi directory is modelled
as a lookup from file name to its image when the file exists; missing
sources are skipped.  Each produced entry is
`(density label, file name, resized image)`. -/
def create_all_densities (K : Kernel) (files : String → Option Image) :
    List (String × String × Image) :=
  icon_files.flatMap fun name =>
    match files name with
    | none => []
    | some img => (densityOutputsFor K img).map fun p => (p.1, name, p.2)

/-- The `[WARN] ... not found, skipping` messages printed by
`create_all_densities` (lines 93-94). -/
def density_warnings (files : String → Option Image) : List String :=
  icon_files.filterMap fun name =>
    match files name with
    | none => some ("[WARN] " ++ name ++ " not found, skipping")
    | some _ => none

/-- Lookup of a produced output file by name (models
`os.path.exists` + `Image.open` inside the xxxhdpi output directory,
assuming a clean output tree). -/
def lookupOutput (outs : List (String × Image)) (name : String) : Option Image :=
  (outs.find? fun p => p.1 == name).map Prod.snd

/-- The observable outcome of one `main()` run of process_icons.py. -/
structure RunResult where
  outputs : List (String × Image)
  densityOutputs : List (String × String × Image)
  warnings : List String
  exitCode : Nat

/-- `main()` of src/process_icons.py (lines 109-161): each optional
source file is an `Option Image`; a missing file yields a warning and
skips only its stage; the density fan-out then reads the files the
earlier stages produced (clean output tree); the script always reaches
the end, exiting with status 0. -/
def process_icons_main (K : Kernel)
    (foreground background mono : Option Image) : RunResult :=
  let fgOut := match foreground with
    | some i => [("ic_launcher_foreground.png", make_square_and_resize K i 432)]
    | none => []
  let fgWarn := match foreground with
    | some _ => []
    | none => ["[WARN] foreground.png not found!"]
  let bgOut := match background with
    | some i => [("ic_launcher_background.png", process_background K i 432)]
    | none => []
  let bgWarn := match background with
    | some _ => []
    | none => ["[WARN] background.png not found!"]
  let monoOut := match mono with
    | some i => [("ic_launcher_monochrome.png", make_square_and_resize K i 432)]
    | none => []
  let monoWarn := match mono with
    | some _ => []
    | none => ["[WARN] mono.png not found!"]
  let outs := fgOut ++ bgOut ++ monoOut
  { outputs := outs
    densityOutputs := create_all_densities K (lookupOutput outs)
    warnings := fgWarn ++ bgWarn ++ monoWarn ++ density_warnings (lookupOutput outs)
    exitCode := 0 }

/-! ## src/split_icons.py -/

/-- `extract_icon`, lines 22-26: crop column `col_index` of the sheet,
keeping the top `crop_height` rows. -/
def columnCrop (img : Image) (col_width crop_height col_index : Nat) : Image :=
  img.crop (col_index * col_width) 0 ((col_index + 1) * col_width) crop_height

/-- `extract_icon`, lines 39-44: the safe-zone padding of the trimmed
icon (canvas `int(max(w, h) / 0.65)`, centered paste, icon as mask only
when it is RGBA). -/
def splitPad (icon_img : Image) : Image :=
  let size := max icon_img.width icon_img.height
  let final_size := intDiv065 size
  let canvas := Image.new Mode.RGBA final_size final_size ⟨0, 0, 0, 0⟩
  canvas.paste icon_img ((final_size - icon_img.width) / 2)
    ((final_size - icon_img.height) / 2)
    (if icon_img.mode = Mode.RGBA then some (fun x y => (icon_img.pix x y).a)
     else none)

/-- `extract_icon(col_index, name)` (src/split_icons.py lines 21-49):
crop the column, trim to the content bounding box (return early with a
warning when there is none), pad into the safe-zone canvas, resize to
`(432, 432)`.  `col_width` and `crop_height` are the enclosing
`split_and_save` locals `width // 3` and `int(height * 0.65)`. -/
def extract_icon (K : Kernel) (img : Image)
    (col_width crop_height col_index : Nat) : Option Image :=
  let icon_col := columnCrop img col_width crop_height col_index
  match icon_col.getbbox with
  | none => none
  | some (l, t, r, b) =>
      some ((splitPad (icon_col.crop l t r b)).resize K 432 432)

/-- The `is_transparent=False` branch of `split_and_save`
(src/split_icons.py lines 57-67): sample the pixel at
`(col_width + col_width // 2, crop_height // 2)` and fill a 432x432 RGB
canvas with its colour (alpha, when present, discarded by
`bg_color[:3]`). -/
def split_background (img : Image) : Image :=
  let col_width := img.width / 3
  let crop_height := intMul065 img.height
  let bg_col_center_x := col_width + col_width / 2
  let bg_col_center_y := crop_height / 2
  let c := img.pix bg_col_center_x bg_col_center_y
  Image.new Mode.RGB 432 432 ⟨c.r, c.g, c.b, 255⟩

/-- The `is_transparent=True` branch of `split_and_save`
(src/split_icons.py lines 51-56): foreground from column 0, monochrome
from column 2. -/
def split_and_save_transparent (K : Kernel) (img : Image) :
    List (String × Option Image) :=
  let col_width := img.width / 3
  let crop_height := intMul065 img.height
  [("ic_launcher_foreground.png", extract_icon K img col_width crop_height 0),
   ("ic_launcher_monochrome.png", extract_icon K img col_width crop_height 2)]

/-! ## Concrete fixtures used by witnesses and counterexamples -/

/-- A trivial kernel instantiating the abstract resampler in closed
statements (statements using it never depend on resampled pixels, or
require only that an all-transparent input stays transparent). -/
def K0 : Kernel := fun _ _ _ _ _ => ⟨0, 0, 0, 0⟩

/-- Opaque white `w x h` RGBA image. -/
def whiteRGBA (w h : Nat) : Image :=
  Image.new Mode.RGBA w h ⟨255, 255, 255, 255⟩

/-- A 20x20 transparent RGBA canvas whose content is an opaque white
13x13 block at floor-centered offset (3, 3) -- a normalized image whose
content occupies exactly 65% of the canvas (`int(13 / 0.65) = 20`). -/
def imgFloorCentered : Image :=
  ⟨20, 20, Mode.RGBA, fun x y =>
    if 3 ≤ x ∧ x < 16 ∧ 3 ≤ y ∧ y < 16 then ⟨255, 255, 255, 255⟩
    else ⟨0, 0, 0, 0⟩⟩

/-- Like `imgFloorCentered` but with the 13x13 block at offset (4, 4):
still square, still 65%-padded, still centered to within a pixel
(20 - 13 is odd), yet not at the floor-centered offset. -/
def imgCeilCentered : Image :=
  ⟨20, 20, Mode.RGBA, fun x y =>
    if 4 ≤ x ∧ x < 17 ∧ 4 ≤ y ∧ y < 17 then ⟨255, 255, 255, 255⟩
    else ⟨0, 0, 0, 0⟩⟩

/-- An RGB 6x4 image whose pixels encode their coordinates, used to
trace pixel movement through crops. -/
def imgCoord : Image :=
  ⟨6, 4, Mode.RGB, fun x y =>
    ⟨⟨x % 256, Nat.mod_lt _ (by omega)⟩, ⟨y % 256, Nat.mod_lt _ (by omega)⟩, 7, 255⟩⟩

/-- A fully transparent (alpha 0) RGBA 2x3 image with nonzero colour
channels. -/
def imgTransparent : Image :=
  Image.new Mode.RGBA 2 3 ⟨9, 8, 7, 0⟩

/-- A 301x20 opaque white sheet: width not divisible by 3. -/
def sheet301 : Image := whiteRGBA 301 20

/-- A 300x200 opaque white sheet (the sheet of the worked example in
the specification). -/
def sheet300 : Image := whiteRGBA 300 200

/-- A directory containing only the foreground file, for the density
fan-out witness. -/
def onlyForeground (img : Image) : String → Option Image := fun name =>
  if name == "ic_launcher_foreground.png" then some img else none

/-! ## Helper lemmas -/

/-- `resize` always yields the requested width (also on Pillow's
same-size copy shortcut). -/
theorem Image.resize_width (K : Kernel) (img : Image) (w h : Nat) :
    (img.resize K w h).width = w := by
  unfold Image.resize
  split
  · next hc => exact hc.1
  · rfl

/-- `resize` always yields the requested height. -/
theorem Image.resize_height (K : Kernel) (img : Image) (w h : Nat) :
    (img.resize K w h).height = h := by
  unfold Image.resize
  split
  · next hc => exact hc.2
  · rfl

/-- `resize` preserves the mode. -/
theorem Image.resize_mode (K : Kernel) (img : Image) (w h : Nat) :
    (img.resize K w h).mode = img.mode := by
  unfold Image.resize
  split <;> rfl

/-- The value of a blended channel, unfolded. -/
theorem blendChan_val (d s m : Fin 256) :
    (blendChan d s m).val =
      (mulDiv255 d ⟨255 - m.val, by omega⟩).val + (mulDiv255 s m).val := rfl

/-- `MULDIV255(x, 255) = x`. -/
theorem mulDiv255_weight_full (x : Fin 256) : mulDiv255 x 255 = x := by
  apply Fin.ext
  show ((x.val * 255 + 128) / 256 + (x.val * 255 + 128)) / 256 = x.val
  have hx : x.val ≤ 255 := Nat.lt_succ_iff.mp x.isLt
  omega

/-- `MULDIV255(x, 0) = 0`. -/
theorem mulDiv255_weight_zero (x : Fin 256) : mulDiv255 x 0 = 0 := by
  apply Fin.ext
  show ((x.val * 0 + 128) / 256 + (x.val * 0 + 128)) / 256 = 0
  omega

/-- Pasting with a full mask weight copies the source channel. -/
theorem blendChan_mask_full (d s : Fin 256) : blendChan d s 255 = s := by
  apply Fin.ext
  rw [blendChan_val]
  have h1 : (⟨255 - (255 : Fin 256).val, by omega⟩ : Fin 256) = (0 : Fin 256) := rfl
  rw [h1, mulDiv255_weight_zero, mulDiv255_weight_full]
  simp

/-- Pasting with a zero mask weight keeps the destination channel. -/
theorem blendChan_mask_zero (d s : Fin 256) : blendChan d s 0 = d := by
  apply Fin.ext
  rw [blendChan_val]
  have h1 : (⟨255 - (0 : Fin 256).val, by omega⟩ : Fin 256) = (255 : Fin 256) := rfl
  rw [h1, mulDiv255_weight_zero, mulDiv255_weight_full]
  simp

/-- An image none of whose in-range pixels count as content has no
bounding box. -/
theorem getbbox_eq_none_of_no_content (img : Image)
    (h : ∀ x, x < img.width → ∀ y, y < img.height → img.hasContent x y = false) :
    img.getbbox = none := by
  have hc : img.contentCols = [] := by
    unfold Image.contentCols
    rw [List.filter_eq_nil_iff]
    intro x hx
    rw [List.mem_range] at hx
    simp only [List.any_eq_true, List.mem_range, not_exists]
    rintro y ⟨hy, hcon⟩
    rw [h x hx y hy] at hcon
    exact Bool.false_ne_true hcon
  have hr : img.contentRows = [] := by
    unfold Image.contentRows
    rw [List.filter_eq_nil_iff]
    intro y hy
    rw [List.mem_range] at hy
    simp only [List.any_eq_true, List.mem_range, not_exists]
    rintro x ⟨hx, hcon⟩
    rw [h x hx y hy] at hcon
    exact Bool.false_ne_true hcon
  unfold Image.getbbox
  rw [hc, hr]
  rfl

/-! ## Claim theorems -/

/-- Claim C1: for every decodable source image and every target size S,
`make_square_and_resize` produces an output whose width equals its
height, both equal to S; and every icon the splitter's `extract_icon`
emits is 432 x 432. -/
theorem normalizer_output_square (K : Kernel) (img : Image) (S : Nat)
    (hw : 0 < img.width) (hh : 0 < img.height) (hS : 0 < S)
    (cw ch i : Nat) :
    ((make_square_and_resize K img S).width = S ∧
     (make_square_and_resize K img S).height = S ∧
     (make_square_and_resize K img S).width =
       (make_square_and_resize K img S).height) ∧
    (extract_icon K img cw ch i).elim True
      (fun out => out.width = 432 ∧ out.height = 432 ∧ out.width = out.height) := by
  constructor
  · have h1 : (make_square_and_resize K img S).width = S :=
      Image.resize_width K _ S S
    have h2 : (make_square_and_resize K img S).height = S :=
      Image.resize_height K _ S S
    exact ⟨h1, h2, by rw [h1, h2]⟩
  · simp only [extract_icon]
    cases hb : (columnCrop img cw ch i).getbbox with
    | none => exact trivial
    | some bbox =>
        obtain ⟨l, t, r, b⟩ := bbox
        show (Image.resize K (splitPad ((columnCrop img cw ch i).crop l t r b))
                432 432).width = 432 ∧
             (Image.resize K (splitPad ((columnCrop img cw ch i).crop l t r b))
                432 432).height = 432 ∧
             (Image.resize K (splitPad ((columnCrop img cw ch i).crop l t r b))
                432 432).width =
               (Image.resize K (splitPad ((columnCrop img cw ch i).crop l t r b))
                432 432).height
        refine ⟨Image.resize_width K _ 432 432, Image.resize_height K _ 432 432, ?_⟩
        rw [Image.resize_width K _ 432 432, Image.resize_height K _ 432 432]

/-- Witness for C1 at a concrete 1x1 white source image. -/
theorem normalizer_output_square_witness :
    (((make_square_and_resize K0 (whiteRGBA 1 1) 432).width = 432 ∧
      (make_square_and_resize K0 (whiteRGBA 1 1) 432).height = 432 ∧
      (make_square_and_resize K0 (whiteRGBA 1 1) 432).width =
        (make_square_and_resize K0 (whiteRGBA 1 1) 432).height) ∧
     (extract_icon K0 (whiteRGBA 1 1) 1 1 0).elim True
       (fun out => out.width = 432 ∧ out.height = 432 ∧ out.width = out.height)) :=
  normalizer_output_square K0 (whiteRGBA 1 1) 432 (by decide) (by decide)
    (by decide) 1 1 0

/-- Claim C2 counterexample: on a trimmed 100x100 image the padding
canvas is 153 pixels wide (`int(100 / 0.65)` truncates), not the
claimed `round_up(100 / 0.65) = 154`. -/
theorem canvas_size_not_round_up :
    (padToSafeZone (whiteRGBA 100 100)).width ≠
      (100 * max (whiteRGBA 100 100).width (whiteRGBA 100 100).height + 64) / 65 ∧
    (splitPad (whiteRGBA 100 100)).width ≠
      (100 * max (whiteRGBA 100 100).width (whiteRGBA 100 100).height + 64) / 65 := by
  constructor <;> decide

/-- Claim C2 (amended): in the padding step -- both the Normalizer's
(`padToSafeZone`, process_icons lines 32-37) and the splitter's
(`splitPad`, split_icons lines 39-43) -- the transparent canvas is a
square of side `trunc(max(w, h) / 0.65)` (truncation, i.e. floor, of
the exact quotient), not its ceiling; the two agree exactly when
`max(w, h)` is divisible by 13. -/
theorem canvas_size_truncated (img : Image) :
    (padToSafeZone img).width = 100 * max img.width img.height / 65 ∧
    (padToSafeZone img).height = 100 * max img.width img.height / 65 ∧
    (splitPad img).width = 100 * max img.width img.height / 65 ∧
    (splitPad img).height = 100 * max img.width img.height / 65 := by
  have key : ∀ n : Nat, 20 * n / 13 = 100 * n / 65 := by
    intro n
    have h : 100 * n = 5 * (20 * n) := by ring
    rw [h, show (65 : Nat) = 5 * 13 from rfl,
      Nat.mul_div_mul_left _ _ (by norm_num : (0 : Nat) < 5)]
  refine ⟨?_, ?_, ?_, ?_⟩ <;>
    exact key (max img.width img.height)

/-- Claim C3: with `colWidth = W // 3` and `cropHeight = int(H * 0.65)`,
column i of the sheet is cropped to the rectangle
`(i*colWidth, 0, (i+1)*colWidth, cropHeight)`: the crop is
`colWidth x cropHeight` and its pixel (x, y) is the sheet's pixel
`(i*colWidth + x, y)`; a 300x200 sheet yields 100x130 column crops. -/
theorem column_crop_rect (img : Image) (i : Nat) (hi : i < 3) :
    (columnCrop img (img.width / 3) (intMul065 img.height) i).width = img.width / 3 ∧
    (columnCrop img (img.width / 3) (intMul065 img.height) i).height = intMul065 img.height ∧
    (∀ x, x < img.width / 3 → ∀ y, y < intMul065 img.height →
      (columnCrop img (img.width / 3) (intMul065 img.height) i).pix x y =
        img.pix (i * (img.width / 3) + x) y) ∧
    (img.width = 300 → img.height = 200 →
      (columnCrop img (img.width / 3) (intMul065 img.height) i).width = 100 ∧
      (columnCrop img (img.width / 3) (intMul065 img.height) i).height = 130) := by
  have hq : ∀ q : Nat, (i + 1) * q - i * q = q := by
    intro q
    rw [Nat.add_mul, Nat.one_mul]
    omega
  have hwidth : (columnCrop img (img.width / 3) (intMul065 img.height) i).width
      = img.width / 3 := hq (img.width / 3)
  have hheight : (columnCrop img (img.width / 3) (intMul065 img.height) i).height
      = intMul065 img.height := Nat.sub_zero _
  refine ⟨hwidth, hheight, ?_, ?_⟩
  · intro x hx y hy
    have h3 : img.width / 3 * 3 ≤ img.width := Nat.div_mul_le_self img.width 3
    have hil : i * (img.width / 3) ≤ 2 * (img.width / 3) :=
      Nat.mul_le_mul_right _ (by omega)
    have hxin : i * (img.width / 3) + x < img.width := by omega
    have hch : intMul065 img.height ≤ img.height := by
      unfold intMul065
      omega
    have hyin : 0 + y < img.height := by omega
    show (if i * (img.width / 3) + x < img.width ∧ 0 + y < img.height
        then img.pix (i * (img.width / 3) + x) (0 + y)
        else _) = img.pix (i * (img.width / 3) + x) y
    rw [if_pos ⟨hxin, hyin⟩, Nat.zero_add]
  · intro h300 h200
    constructor
    · rw [hwidth, h300]
    · rw [hheight, h200]
      rfl

/-- Witness for C3: the 300x200 sheet, middle column. -/
theorem column_crop_rect_witness :
    (columnCrop sheet300 (sheet300.width / 3) (intMul065 sheet300.height) 1).width
      = sheet300.width / 3 :=
  (column_crop_rect sheet300 1 (by decide)).1

/-- Claim C4 counterexample: a 301-pixel-wide sheet (301 is not
divisible by 3) still gives the third column the full
`colWidth = 301 // 3 = 100` width -- the last column is not narrower. -/
theorem last_column_not_narrower :
    ¬(3 ∣ sheet301.width) ∧
    ¬((columnCrop sheet301 (sheet301.width / 3) (intMul065 sheet301.height) 2).width
        < sheet301.width / 3) := by
  constructor <;> decide

/-- Claim C4 (amended): when the sheet width is not divisible by the
column count, every column -- the last included -- still has width
exactly `colWidth = W // 3`; the remainder `W - 3*colWidth` lies to the
right of all three column rectangles and is simply discarded. -/
theorem all_columns_full_width (img : Image) (i : Nat) (hi : i < 3) :
    (columnCrop img (img.width / 3) (intMul065 img.height) i).width = img.width / 3 ∧
    (i + 1) * (img.width / 3) ≤ 3 * (img.width / 3) ∧
    3 * (img.width / 3) ≤ img.width := by
  have hq : (i + 1) * (img.width / 3) - i * (img.width / 3) = img.width / 3 := by
    rw [Nat.add_mul, Nat.one_mul]
    omega
  refine ⟨hq, Nat.mul_le_mul_right _ (by omega), ?_⟩
  have := Nat.div_mul_le_self img.width 3
  omega

/-- Witness for C4's amended statement: the 301-wide sheet, last column. -/
theorem all_columns_full_width_witness :
    (columnCrop sheet301 (sheet301.width / 3) (intMul065 sheet301.height) 2).width
      = sheet301.width / 3 :=
  (all_columns_full_width sheet301 2 (by decide)).1

/-- Claim C7: the background-colour variant samples the sheet pixel at
`(floor(colWidth * 1.5), floor(cropHeight / 2))` (the code's
`col_width + col_width // 2` equals `floor(1.5 * colWidth)`), and the
output is a 432x432 RGB canvas uniformly filled with that pixel's RGB
triple, alpha discarded. -/
theorem background_sample_fill (img : Image)
    (hw : 0 < img.width) (hh : 0 < img.height) :
    (split_background img).width = 432 ∧
    (split_background img).height = 432 ∧
    (split_background img).mode = Mode.RGB ∧
    img.width / 3 + img.width / 3 / 2 = 3 * (img.width / 3) / 2 ∧
    3 * (img.width / 3) / 2 < img.width ∧
    intMul065 img.height / 2 < img.height ∧
    ∀ x, x < 432 → ∀ y, y < 432 →
      (split_background img).pix x y =
        ⟨(img.pix (3 * (img.width / 3) / 2) (intMul065 img.height / 2)).r,
         (img.pix (3 * (img.width / 3) / 2) (intMul065 img.height / 2)).g,
         (img.pix (3 * (img.width / 3) / 2) (intMul065 img.height / 2)).b,
         255⟩ := by
  have hcoord : img.width / 3 + img.width / 3 / 2 = 3 * (img.width / 3) / 2 := by
    omega
  refine ⟨rfl, rfl, rfl, hcoord, ?_, ?_, ?_⟩
  · omega
  · show 13 * img.height / 20 / 2 < img.height
    omega
  · intro x hx y hy
    show (⟨(img.pix (img.width / 3 + img.width / 3 / 2) (intMul065 img.height / 2)).r,
          (img.pix (img.width / 3 + img.width / 3 / 2) (intMul065 img.height / 2)).g,
          (img.pix (img.width / 3 + img.width / 3 / 2) (intMul065 img.height / 2)).b,
          255⟩ : Pixel) = _
    rw [hcoord]

/-- Witness for C7 at the concrete coordinate-encoding 6x4 RGB image. -/
theorem background_sample_fill_witness :
    (split_background imgCoord).width = 432 :=
  (background_sample_fill imgCoord (by decide) (by decide)).1

/-- Keeping only the entries carrying their own tag is the identity on
a tagged list. -/
theorem filter_tag_self (tag : String) (l : List (String × Image)) :
    ((l.map fun p => (p.1, tag, p.2)).filter fun t => t.2.1 == tag) =
      l.map fun p => (p.1, tag, p.2) := by
  induction l with
  | nil => rfl
  | cons hd tl ih =>
      simp only [List.map_cons, List.filter_cons]
      rw [if_pos (by simp)]
      rw [ih]

/-- Filtering a tagged list by a different tag gives the empty list. -/
theorem filter_tag_other (tag other : String) (h : tag ≠ other)
    (l : List (String × Image)) :
    ((l.map fun p => (p.1, tag, p.2)).filter fun t => t.2.1 == other) = [] := by
  induction l with
  | nil => rfl
  | cons hd tl ih =>
      simp only [List.map_cons, List.filter_cons]
      rw [if_neg (by simpa using h)]
      exact ih

/-- Claim C8: for every asset whose canonical 432-size source exists in
the xxxhdpi directory, the density fan-out emits exactly 4 outputs,
labelled mdpi/hdpi/xhdpi/xxhdpi with pixel sizes 108/162/216/324, each
a pure `resize` of that canonical source (no cropping or re-padding),
regardless of the source's dimensions. -/
theorem density_fanout (K : Kernel) (files : String → Option Image)
    (name : String) (img : Image)
    (hname : name ∈ icon_files) (hfile : files name = some img) :
    (densityOutputsFor K img).length = 4 ∧
    (densityOutputsFor K img).map Prod.fst = ["mdpi", "hdpi", "xhdpi", "xxhdpi"] ∧
    (densityOutputsFor K img).map (fun p => p.2.width) = [108, 162, 216, 324] ∧
    (densityOutputsFor K img).map (fun p => p.2.height) = [108, 162, 216, 324] ∧
    (∀ p ∈ densityOutputsFor K img,
      p.2 = img.resize K p.2.width p.2.height) ∧
    ((create_all_densities K files).filter fun t => t.2.1 == name) =
      (densityOutputsFor K img).map fun p => (p.1, name, p.2) := by
  have hd : densityOutputsFor K img =
      [("mdpi", img.resize K 108 108), ("hdpi", img.resize K 162 162),
       ("xhdpi", img.resize K 216 216), ("xxhdpi", img.resize K 324 324)] := rfl
  refine ⟨rfl, rfl, ?_, ?_, ?_, ?_⟩
  · rw [hd]
    simp [Image.resize_width]
  · rw [hd]
    simp [Image.resize_height]
  · intro p hp
    rw [hd] at hp
    simp only [List.mem_cons, List.not_mem_nil, or_false] at hp
    rcases hp with h | h | h | h <;>
      (subst h
       rw [Image.resize_width, Image.resize_height])
  · simp only [icon_files, List.mem_cons, List.not_mem_nil, or_false] at hname
    simp only [create_all_densities, icon_files, List.flatMap_cons,
      List.flatMap_nil, List.append_nil, List.filter_append]
    rcases hname with h | h | h
    · subst h
      rw [hfile]
      cases hb : files "ic_launcher_background.png" <;>
        cases hm : files "ic_launcher_monochrome.png" <;>
        simp [filter_tag_self,
          filter_tag_other "ic_launcher_background.png"
            "ic_launcher_foreground.png" (by decide),
          filter_tag_other "ic_launcher_monochrome.png"
            "ic_launcher_foreground.png" (by decide)]
    · subst h
      rw [hfile]
      cases hf : files "ic_launcher_foreground.png" <;>
        cases hm : files "ic_launcher_monochrome.png" <;>
        simp [filter_tag_self,
          filter_tag_other "ic_launcher_foreground.png"
            "ic_launcher_background.png" (by decide),
          filter_tag_other "ic_launcher_monochrome.png"
            "ic_launcher_background.png" (by decide)]
    · subst h
      rw [hfile]
      cases hf : files "ic_launcher_foreground.png" <;>
        cases hb : files "ic_launcher_background.png" <;>
        simp [filter_tag_self,
          filter_tag_other "ic_launcher_foreground.png"
            "ic_launcher_monochrome.png" (by decide),
          filter_tag_other "ic_launcher_background.png"
            "ic_launcher_monochrome.png" (by decide)]

/-- Witness for C8: a directory holding only a 2x2 white foreground. -/
theorem density_fanout_witness :
    (densityOutputsFor K0 (whiteRGBA 2 2)).length = 4 :=
  (density_fanout K0 (onlyForeground (whiteRGBA 2 2))
    "ic_launcher_foreground.png" (whiteRGBA 2 2) (by decide) rfl).1

/-- Claim C9: when `foreground.png` is missing (and the other two
sources are present), `main()` logs the foreground warning plus the
fan-out's skip warning, produces no foreground output in either the
xxxhdpi tree or the density tree, still runs the background and
monochrome pipelines to completion (their 432 outputs and all four
density outputs each), and terminates with exit code 0. -/
theorem missing_foreground_run (K : Kernel) (b m : Image) :
    (process_icons_main K none (some b) (some m)).exitCode = 0 ∧
    (process_icons_main K none (some b) (some m)).warnings =
      ["[WARN] foreground.png not found!",
       "[WARN] ic_launcher_foreground.png not found, skipping"] ∧
    ((process_icons_main K none (some b) (some m)).outputs.filter
      fun p => p.1 == "ic_launcher_foreground.png") = [] ∧
    ((process_icons_main K none (some b) (some m)).densityOutputs.filter
      fun t => t.2.1 == "ic_launcher_foreground.png") = [] ∧
    (process_icons_main K none (some b) (some m)).outputs =
      [("ic_launcher_background.png", process_background K b 432),
       ("ic_launcher_monochrome.png", make_square_and_resize K m 432)] ∧
    (process_icons_main K none (some b) (some m)).densityOutputs =
      ((densityOutputsFor K (process_background K b 432)).map
        fun p => (p.1, "ic_launcher_background.png", p.2)) ++
      ((densityOutputsFor K (make_square_and_resize K m 432)).map
        fun p => (p.1, "ic_launcher_monochrome.png", p.2)) := by
  exact ⟨rfl, rfl, rfl, rfl, rfl, rfl⟩

/-- The flatten stage of `process_background` always yields an RGB
image with alpha 255 everywhere (given the RGB-source alpha
convention). -/
theorem background_flatten_stage_rgb (img : Image)
    (hwf : img.mode = Mode.RGB → ∀ x y, (img.pix x y).a = 255) :
    (background_flatten_stage img).mode = Mode.RGB ∧
    ∀ x y, ((background_flatten_stage img).pix x y).a = 255 := by
  unfold background_flatten_stage
  split
  · next hRGBA =>
      constructor
      · rfl
      · intro x y
        simp only [flattenOnWhite, Image.paste, Image.new]
        split <;> rfl
  · next hnRGBA =>
      split
      · next hnRGB =>
          exact ⟨rfl, fun x y => rfl⟩
      · next hRGB =>
          have hm : img.mode = Mode.RGB := by
            cases h : img.mode
            · rfl
            · exact absurd h hnRGBA
          exact ⟨hm, hwf hm⟩

/-- `padSquareWhite` keeps an opaque RGB image opaque RGB. -/
theorem padSquareWhite_rgb (im : Image) (hm : im.mode = Mode.RGB)
    (ha : ∀ x y, (im.pix x y).a = 255) :
    (padSquareWhite im).mode = Mode.RGB ∧
    ∀ x y, ((padSquareWhite im).pix x y).a = 255 := by
  unfold padSquareWhite
  split
  · constructor
    · rfl
    · intro x y
      simp only [Image.paste, Image.new]
      split <;> rfl
  · exact ⟨hm, ha⟩

/-- Claim C6: `process_background` always outputs an opaque RGB image
of the target size; an RGBA source is composited over an opaque white
canvas using its alpha as the blend weight; a non-square source is
padded -- never cropped -- to a square by centering it on a white
canvas sized to the larger dimension (and a square source skips the
squaring step). -/
theorem background_output_rgb (K : Kernel) (img : Image) (S : Nat)
    (hwf : img.mode = Mode.RGB → ∀ x y, (img.pix x y).a = 255) :
    (process_background K img S).mode = Mode.RGB ∧
    (process_background K img S).width = S ∧
    (process_background K img S).height = S ∧
    (∀ x y, ((process_background K img S).pix x y).a = 255) ∧
    (img.mode = Mode.RGBA → ∀ x, x < img.width → ∀ y, y < img.height →
      (flattenOnWhite img).pix x y =
        ⟨blendChan 255 (img.pix x y).r (img.pix x y).a,
         blendChan 255 (img.pix x y).g (img.pix x y).a,
         blendChan 255 (img.pix x y).b (img.pix x y).a, 255⟩) ∧
    (∀ im : Image, im.width = im.height → padSquareWhite im = im) ∧
    (∀ im : Image, im.width ≠ im.height →
      (padSquareWhite im).width = max im.width im.height ∧
      (padSquareWhite im).height = max im.width im.height ∧
      ∀ x, x < im.width → ∀ y, y < im.height →
        (((padSquareWhite im).pix ((max im.width im.height - im.width) / 2 + x)
            ((max im.width im.height - im.height) / 2 + y)).r = (im.pix x y).r ∧
         ((padSquareWhite im).pix ((max im.width im.height - im.width) / 2 + x)
            ((max im.width im.height - im.height) / 2 + y)).g = (im.pix x y).g ∧
         ((padSquareWhite im).pix ((max im.width im.height - im.width) / 2 + x)
            ((max im.width im.height - im.height) / 2 + y)).b = (im.pix x y).b)) := by
  obtain ⟨h1m, h1a⟩ := background_flatten_stage_rgb img hwf
  obtain ⟨h2m, h2a⟩ := padSquareWhite_rgb _ h1m h1a
  refine ⟨?_, Image.resize_width K _ S S, Image.resize_height K _ S S,
    ?_, ?_, ?_, ?_⟩
  · show (Image.resize K (padSquareWhite (background_flatten_stage img)) S S).mode
      = Mode.RGB
    rw [Image.resize_mode]
    exact h2m
  · intro x y
    show ((Image.resize K (padSquareWhite (background_flatten_stage img)) S S).pix
      x y).a = 255
    unfold Image.resize
    split
    · exact h2a x y
    · simp only [h2m]
  · intro hRGBA x hx y hy
    simp only [flattenOnWhite, Image.paste, Image.new]
    rw [if_pos ⟨Nat.zero_le x, by omega, Nat.zero_le y, by omega, hx, hy⟩]
    simp only [hRGBA, Nat.sub_zero]
  · intro im him
    simp only [padSquareWhite]
    rw [if_neg (fun hne => hne him)]
  · intro im hne
    have hwle : im.width ≤ max im.width im.height := le_max_left _ _
    have hhle : im.height ≤ max im.width im.height := le_max_right _ _
    simp only [padSquareWhite]
    rw [if_pos hne]
    refine ⟨rfl, rfl, ?_⟩
    intro x hx y hy
    simp only [Image.paste, Image.new]
    rw [if_pos ⟨Nat.le_add_right _ x, by omega, Nat.le_add_right _ y, by omega,
      by omega, by omega⟩]
    simp only [Nat.add_sub_cancel_left]
    cases hmo : im.mode <;> simp [hmo]

/-- Witness for C6 at the concrete opaque RGB 6x4 image. -/
theorem background_output_rgb_witness :
    (process_background K0 imgCoord 432).mode = Mode.RGB :=
  (background_output_rgb K0 imgCoord 432 (fun _ x y => rfl)).1

/-- `centerCropSquare` preserves the mode. -/
theorem centerCropSquare_mode (im : Image) :
    (centerCropSquare im).mode = im.mode := by
  unfold centerCropSquare
  split <;> rfl

/-- `centerCropSquare` of a fully transparent RGBA image is fully
transparent. -/
theorem centerCropSquare_transparent (im : Image) (hm : im.mode = Mode.RGBA)
    (ha : ∀ x, x < im.width → ∀ y, y < im.height → (im.pix x y).a = 0) :
    ∀ x, x < (centerCropSquare im).width →
      ∀ y, y < (centerCropSquare im).height →
      ((centerCropSquare im).pix x y).a = 0 := by
  unfold centerCropSquare
  split
  · intro x hx y hy
    simp only [Image.crop]
    split
    · next hin => exact ha _ hin.1 _ hin.2
    · rw [hm]
  · exact ha

/-- Padding a fully transparent image yields an all-zero canvas. -/
theorem padToSafeZone_transparent (im : Image)
    (ha : ∀ x, x < im.width → ∀ y, y < im.height → (im.pix x y).a = 0) :
    ∀ x y, (padToSafeZone im).pix x y = ⟨0, 0, 0, 0⟩ := by
  intro x y
  simp only [padToSafeZone, Image.paste, Image.new]
  split
  · next hin =>
      obtain ⟨h1, h2, h3, h4, h5, h6⟩ := hin
      have hmx : x - (intDiv065 (max im.width im.height) - im.width) / 2
          < im.width := by omega
      have hmy : y - (intDiv065 (max im.width im.height) - im.height) / 2
          < im.height := by omega
      rw [ha _ hmx _ hmy]
      simp only [blendChan_mask_zero]
  · rfl

/-- Claim C10: on a fully transparent decodable RGBA source (alpha 0 at
every in-range pixel, hence no bounding box), `make_square_and_resize`
does not fail: the trim step is skipped (`getbbox` of the
center-cropped square is `None`), and the output is a fully transparent
image of exactly `(S, S)`.  The hypothesis on `K` is the only property
of the LANCZOS resampler used: an all-zero source resamples to zero. -/
theorem fully_transparent_ok (K : Kernel) (img : Image) (S : Nat)
    (hmode : img.mode = Mode.RGBA)
    (hw : 0 < img.width) (hh : 0 < img.height) (hS : 0 < S)
    (htrans : ∀ x, x < img.width → ∀ y, y < img.height → (img.pix x y).a = 0)
    (hK : ∀ im : Image, im.mode = Mode.RGBA →
      (∀ x, x < im.width → ∀ y, y < im.height → im.pix x y = ⟨0, 0, 0, 0⟩) →
      ∀ w h x y, K im w h x y = ⟨0, 0, 0, 0⟩) :
    (centerCropSquare img).getbbox = none ∧
    (make_square_and_resize K img S).width = S ∧
    (make_square_and_resize K img S).height = S ∧
    ∀ x, x < S → ∀ y, y < S →
      (make_square_and_resize K img S).pix x y = ⟨0, 0, 0, 0⟩ := by
  have himg1 : (if img.mode ≠ Mode.RGBA then img.convertRGBA else img) = img :=
    if_neg (fun hne => hne hmode)
  have hcca := centerCropSquare_transparent img hmode htrans
  have hbox : (centerCropSquare img).getbbox = none := by
    apply getbbox_eq_none_of_no_content
    intro x hx y hy
    unfold Image.hasContent
    rw [centerCropSquare_mode img, hmode]
    simp [hcca x hx y hy]
  have hpad := padToSafeZone_transparent (centerCropSquare img) hcca
  have hpipe : make_square_and_resize K img S =
      (padToSafeZone (centerCropSquare img)).resize K S S := by
    unfold make_square_and_resize
    rw [himg1]
    unfold trimTransparency
    simp only [hbox]
  refine ⟨hbox, Image.resize_width K _ S S, Image.resize_height K _ S S, ?_⟩
  intro x hx y hy
  rw [hpipe]
  unfold Image.resize
  split
  · exact hpad x y
  · exact hK _ rfl (fun a _ b _ => hpad a b) S S x y

/-- Witness for C10: a 2x3 image whose pixels have nonzero colour but
alpha 0 throughout. -/
theorem fully_transparent_ok_witness :
    (centerCropSquare imgTransparent).getbbox = none :=
  (fully_transparent_ok K0 imgTransparent 5 rfl (by decide) (by decide)
    (by decide) (by decide) (fun im hm hz w h x y => rfl)).1

/-- Claim C5 counterexample: `imgCeilCentered` is square (20x20), its
13x13 opaque content occupies exactly 65% of the canvas
(`int(13 / 0.65) = 20`) and is centered to within a pixel, yet
re-normalizing moves the content to the floor-centered offset 3, so the
result is not pixel-identical (the pixel at (3, 3) changes from
transparent to opaque white). -/
theorem renormalize_not_pixel_identical :
    ¬ Image.pixEq (make_square_and_resize K0 imgCeilCentered 20)
      imgCeilCentered := by
  intro h
  have hW : (make_square_and_resize K0 imgCeilCentered 20).width = 20 := by
    decide
  have hH : (make_square_and_resize K0 imgCeilCentered 20).height = 20 := by
    decide
  have h33 := h.2.2.2 3 (by rw [hW]; decide) 3 (by rw [hH]; decide)
  have hA : (make_square_and_resize K0 imgCeilCentered 20).pix 3 3 =
      ⟨255, 255, 255, 255⟩ := by decide
  have hB : imgCeilCentered.pix 3 3 = ⟨0, 0, 0, 0⟩ := by decide
  rw [hA, hB] at h33
  exact absurd h33 (by decide)

/-- Claim C5 (amended): re-normalizing with the same target size S is
pixel-identical exactly on the images the Normalizer itself lays out:
square SxS, fully transparent outside a tight content box whose opaque
content has `int(maxdim / 0.65) = S` (content occupies the 65% zone
with no resampling needed) and which sits at the floor-centered offsets
`((S-w)//2, (S-h)//2)`.  An image whose content sits one pixel off that
offset -- still "centered" to within a pixel -- is a counterexample. -/
theorem renormalize_identical_floor_centered (K : Kernel) (img : Image)
    (S x0 y0 w h : Nat)
    (hmode : img.mode = Mode.RGBA)
    (hwS : img.width = S) (hhS : img.height = S)
    (hbox : img.getbbox = some (x0, y0, x0 + w, y0 + h))
    (hcanvas : intDiv065 (max w h) = S)
    (hx0 : x0 = (S - w) / 2) (hy0 : y0 = (S - h) / 2)
    (hwle : x0 + w ≤ S) (hhle : y0 + h ≤ S)
    (hzero : ∀ x, x < S → ∀ y, y < S →
      ¬(x0 ≤ x ∧ x < x0 + w ∧ y0 ≤ y ∧ y < y0 + h) →
      img.pix x y = ⟨0, 0, 0, 0⟩)
    (hfull : ∀ x, x < S → ∀ y, y < S →
      (x0 ≤ x ∧ x < x0 + w ∧ y0 ≤ y ∧ y < y0 + h) →
      (img.pix x y).a = 255) :
    Image.pixEq (make_square_and_resize K img S) img := by
  have himg1 : (if img.mode ≠ Mode.RGBA then img.convertRGBA else img) = img :=
    if_neg (fun hne => hne hmode)
  have hsq : centerCropSquare img = img := by
    unfold centerCropSquare
    exact if_neg (fun hne => hne (hwS.trans hhS.symm))
  have hpipe : make_square_and_resize K img S =
      (padToSafeZone (img.crop x0 y0 (x0 + w) (y0 + h))).resize K S S := by
    unfold make_square_and_resize
    simp only [himg1, hsq]
    unfold trimTransparency
    simp only [hbox]
  rw [hpipe]
  have hTw : x0 + w - x0 = w := by omega
  have hTh : y0 + h - y0 = h := by omega
  have hcsw : (padToSafeZone (img.crop x0 y0 (x0 + w) (y0 + h))).width = S := by
    show intDiv065 (max (x0 + w - x0) (y0 + h - y0)) = S
    rw [hTw, hTh]
    exact hcanvas
  have hcsh : (padToSafeZone (img.crop x0 y0 (x0 + w) (y0 + h))).height = S := by
    show intDiv065 (max (x0 + w - x0) (y0 + h - y0)) = S
    rw [hTw, hTh]
    exact hcanvas
  have hres : (padToSafeZone (img.crop x0 y0 (x0 + w) (y0 + h))).resize K S S
      = padToSafeZone (img.crop x0 y0 (x0 + w) (y0 + h)) := by
    unfold Image.resize
    rw [if_pos ⟨hcsw, hcsh⟩]
  rw [hres]
  refine ⟨?_, ?_, ?_, ?_⟩
  · rw [hcsw]
    exact hwS.symm
  · rw [hcsh]
    exact hhS.symm
  · show Mode.RGBA = img.mode
    exact hmode.symm
  · intro x hx y hy
    rw [hcsw] at hx
    rw [hcsh] at hy
    have hxw : x < img.width := by omega
    have hyh : y < img.height := by omega
    simp only [padToSafeZone, Image.paste, Image.new, Image.crop, hTw, hTh,
      hcanvas]
    rw [← hx0, ← hy0]
    by_cases hin : x0 ≤ x ∧ x < x0 + w ∧ y0 ≤ y ∧ y < y0 + h
    · obtain ⟨hi1, hi2, hi3, hi4⟩ := hin
      rw [if_pos ⟨hi1, hi2, hi3, hi4, by omega, by omega⟩]
      have hxx : x0 + (x - x0) = x := by omega
      have hyy : y0 + (y - y0) = y := by omega
      rw [hxx, hyy]
      rw [if_pos ⟨hxw, hyh⟩]
      rw [hfull x hx y hy ⟨hi1, hi2, hi3, hi4⟩]
      rw [hmode]
      simp only [blendChan_mask_full]
    · rw [if_neg (fun hc => hin ⟨hc.1, hc.2.1, hc.2.2.1, hc.2.2.2.1⟩)]
      exact (hzero x hx y hy hin).symm

/-- Witness for C5's amended statement: the floor-centered 20x20 image
is reproduced pixel-for-pixel. -/
theorem renormalize_identical_floor_centered_witness :
    Image.pixEq (make_square_and_resize K0 imgFloorCentered 20)
      imgFloorCentered :=
  renormalize_identical_floor_centered K0 imgFloorCentered 20 3 3 13 13 rfl rfl
    rfl (by decide) (by decide) (by decide) (by decide) (by decide) (by decide)
    (by decide) (by decide)
